import Mathlib

/-!
Verification of the device registry and smart-home intent translator of
`actions-virtual-device` against its natural-language specification.

The Rust sources are shallowly embedded: machine integers (`u8`, `u32`) become
`Nat` with explicit bounds where they matter, fallible calls become `Except` or
`Option`, the per-entry atomic cache cells become plain record fields (every
modeled operation is a single serialized registry call, so atomicity is not
visible at this level), and a Rust panic is modeled as `Option.none`.
-/

namespace VDev

/-! ## Hexadecimal formatting and parsing

`Color::to_spectrum` (src/lib.rs) renders three bytes with the Rust formatter
as two uppercase hex digits each (format spec 02X) and re-parses the
six-character string with `u32::from_str_radix(_, 16)`.  The EXECUTE color
branch of `fulfill` (src/fulfill.rs) renders a spectrum integer with width-6
zero padding (format spec 06X), splits the characters into chunks of two, and
parses each chunk with `u8::from_str_radix(_, 16)`.  We model the formatter and
parser at the character level. -/

/-- Uppercase hexadecimal digit character, as produced by Rust `X` formatting:
digit `d < 10` maps to the characters 0 to 9, and `10 ≤ d < 16` to A to F. -/
def hexDigitChar (d : Nat) : Char :=
  if d < 10 then Char.ofNat (48 + d) else Char.ofNat (55 + d)

/-- Value of a hexadecimal digit character as accepted by Rust
`from_str_radix(_, 16)` (via `char::to_digit(16)`): 0 to 9, a to f, A to F. -/
def hexCharVal (c : Char) : Option Nat :=
  if 48 ≤ c.toNat ∧ c.toNat ≤ 57 then some (c.toNat - 48)
  else if 65 ≤ c.toNat ∧ c.toNat ≤ 70 then some (c.toNat - 55)
  else if 97 ≤ c.toNat ∧ c.toNat ≤ 102 then some (c.toNat - 87)
  else none

/-- Little-endian base-16 digits of `n`, fuel-driven so that the kernel can
evaluate it.  `hexDigitsRev` below always supplies sufficient fuel. -/
def hexDigitsRevGo : Nat → Nat → List Nat
  | 0, _ => []
  | fuel + 1, n => if n < 16 then [n] else n % 16 :: hexDigitsRevGo fuel (n / 16)

/-- The base-16 digits of `n`, least significant first; `[0]` for `n = 0`,
matching the Rust formatter which prints at least one digit. -/
def hexDigitsRev (n : Nat) : List Nat := hexDigitsRevGo (n + 1) n

/-- Rust `format!` with spec `0wX` applied to `n`: the uppercase hexadecimal
digits of `n`, most significant first, left-padded with zero characters to
width `w` (and never truncated). -/
def formatHexUpper (width n : Nat) : List Char :=
  let ds := (hexDigitsRev n).reverse.map hexDigitChar
  List.replicate (width - ds.length) '0' ++ ds

/-- One step of Rust `uN::from_str_radix(s, 16)`: accumulate digits left to
right, failing on a non-hex character or when the accumulator would reach
`bound` (the overflow check of the fixed-width integer type). -/
def fromStrRadix16Go (bound : Nat) : List Char → Nat → Option Nat
  | [], acc => some acc
  | c :: cs, acc =>
    match hexCharVal c with
    | none => none
    | some d =>
      if 16 * acc + d < bound then fromStrRadix16Go bound cs (16 * acc + d) else none

/-- Rust `uN::from_str_radix(s, 16)` on the sign-free strings produced by the
hex formatter: fails on the empty string, a non-hex character, or overflow
past `bound`. -/
def fromStrRadix16 (bound : Nat) (cs : List Char) : Option Nat :=
  match cs with
  | [] => none
  | _ :: _ => fromStrRadix16Go bound cs 0

/-- Little-endian base-16 digits of `n`, padded or truncated to exactly `k`
digits; the reference shape used to reason about the formatter. -/
def leDigits : Nat → Nat → List Nat
  | 0, _ => []
  | k + 1, n => n % 16 :: leDigits k (n / 16)

/-- Left fold evaluating a big-endian digit list on top of accumulator `a`. -/
def hexFoldVal (a : Nat) (ds : List Nat) : Nat :=
  ds.foldl (fun acc d => 16 * acc + d) a

theorem hexCharVal_hexDigitChar : ∀ d < 16, hexCharVal (hexDigitChar d) = some d := by
  decide

theorem hexDigitsRevGo_fuel (n : Nat) : ∀ f g, n < f → n < g →
    hexDigitsRevGo f n = hexDigitsRevGo g n := by
  induction n using Nat.strong_induction_on with
  | _ n ih =>
    intro f g hf hg
    match f, g with
    | f' + 1, g' + 1 =>
      simp only [hexDigitsRevGo]
      by_cases h16 : n < 16
      · simp [h16]
      · have hpos : 0 < n := by omega
        have hdiv : n / 16 < n := Nat.div_lt_self hpos (by norm_num)
        simp only [h16, if_false]
        rw [ih (n / 16) hdiv f' g' (by omega) (by omega)]

theorem hexDigitsRev_eq (n : Nat) :
    hexDigitsRev n = if n < 16 then [n] else n % 16 :: hexDigitsRev (n / 16) := by
  by_cases h16 : n < 16
  · simp [hexDigitsRev, hexDigitsRevGo, h16]
  · have hpos : 0 < n := by omega
    have hdiv : n / 16 < n := Nat.div_lt_self hpos (by norm_num)
    have h1 : hexDigitsRev n = n % 16 :: hexDigitsRevGo n (n / 16) := by
      simp [hexDigitsRev, hexDigitsRevGo, h16]
    rw [h1, if_neg h16, hexDigitsRevGo_fuel (n / 16) n (n / 16 + 1) hdiv (Nat.lt_succ_self _)]
    rfl

theorem leDigits_zero (k : Nat) : leDigits k 0 = List.replicate k 0 := by
  induction k with
  | zero => rfl
  | succ k ih => simp [leDigits, ih, List.replicate]

theorem length_leDigits (k n : Nat) : (leDigits k n).length = k := by
  induction k generalizing n with
  | zero => rfl
  | succ k ih => simp [leDigits, ih]

theorem leDigits_mem_lt (k n : Nat) : ∀ d ∈ leDigits k n, d < 16 := by
  induction k generalizing n with
  | zero => intro d hd; simp [leDigits] at hd
  | succ k ih =>
    intro d hd
    simp only [leDigits, List.mem_cons] at hd
    rcases hd with h | h
    · subst h; exact Nat.mod_lt _ (by norm_num)
    · exact ih (n / 16) d h

theorem hexDigitsRev_pad (k : Nat) : ∀ n, n < 16 ^ k → 1 ≤ k →
    hexDigitsRev n ++ List.replicate (k - (hexDigitsRev n).length) 0 = leDigits k n := by
  induction k with
  | zero => intro n _ h; omega
  | succ k ih =>
    intro n hn _
    by_cases h16 : n < 16
    · have h0 : n / 16 = 0 := Nat.div_eq_of_lt h16
      rw [hexDigitsRev_eq n]
      simp [h16, leDigits, Nat.mod_eq_of_lt h16, h0, leDigits_zero, List.replicate]
    · have hk : 1 ≤ k := by
        by_contra hk0
        have : k = 0 := by omega
        subst this
        simp at hn
        omega
      have hdivlt : n / 16 < 16 ^ k := by
        rw [Nat.div_lt_iff_lt_mul (by norm_num)]
        calc n < 16 ^ (k + 1) := hn
        _ = 16 ^ k * 16 := by ring
      rw [hexDigitsRev_eq n]
      simp only [h16, if_false, leDigits]
      have := ih (n / 16) hdivlt hk
      rw [List.cons_append, List.length_cons]
      rw [show k + 1 - ((hexDigitsRev (n / 16)).length + 1) = k - (hexDigitsRev (n / 16)).length by omega]
      rw [this]

theorem hexDigitsRev_length_le (k n : Nat) (hn : n < 16 ^ k) (hk : 1 ≤ k) :
    (hexDigitsRev n).length ≤ k := by
  have h := hexDigitsRev_pad k n hn hk
  have hlen := congrArg List.length h
  simp [length_leDigits] at hlen
  omega

theorem hexDigitsRev_length_gt (n : Nat) : ∀ k, 16 ^ k ≤ n → k < (hexDigitsRev n).length := by
  induction n using Nat.strong_induction_on with
  | _ n ih =>
    intro k hk
    rw [hexDigitsRev_eq n]
    by_cases h16 : n < 16
    · have : k = 0 := by
        by_contra hk0
        have h1 : 1 ≤ k := by omega
        have : 16 ^ 1 ≤ 16 ^ k := Nat.pow_le_pow_right (by norm_num) h1
        simp at this
        omega
      subst this
      simp [h16]
    · have hpos : 0 < n := by omega
      have hdiv : n / 16 < n := Nat.div_lt_self hpos (by norm_num)
      simp only [h16, if_false, List.length_cons]
      match k with
      | 0 => omega
      | j + 1 =>
        have hj : 16 ^ j ≤ n / 16 := by
          rw [Nat.le_div_iff_mul_le (by norm_num : (0:Nat) < 16)]
          calc 16 ^ j * 16 = 16 ^ (j + 1) := by ring
          _ ≤ n := hk
        have := ih (n / 16) hdiv j hj
        omega

theorem formatHexUpper_eq (w n : Nat) (hn : n < 16 ^ w) (hw : 1 ≤ w) :
    formatHexUpper w n = ((leDigits w n).reverse).map hexDigitChar := by
  have hpad := hexDigitsRev_pad w n hn hw
  have h0 : '0' = hexDigitChar 0 := by decide
  calc formatHexUpper w n
      = List.replicate (w - ((hexDigitsRev n).reverse.map hexDigitChar).length) '0'
          ++ (hexDigitsRev n).reverse.map hexDigitChar := rfl
    _ = (List.replicate (w - (hexDigitsRev n).length) 0).map hexDigitChar
          ++ ((hexDigitsRev n).reverse).map hexDigitChar := by
        rw [h0, List.map_replicate]
        simp
    _ = ((List.replicate (w - (hexDigitsRev n).length) 0).reverse
          ++ (hexDigitsRev n).reverse).map hexDigitChar := by
        rw [List.map_append, List.reverse_replicate]
    _ = ((hexDigitsRev n ++ List.replicate (w - (hexDigitsRev n).length) 0).reverse).map
          hexDigitChar := by rw [List.reverse_append]
    _ = ((leDigits w n).reverse).map hexDigitChar := by rw [hpad]

theorem hexFoldVal_ge (a : Nat) (ds : List Nat) : a ≤ hexFoldVal a ds := by
  induction ds generalizing a with
  | nil => simp [hexFoldVal]
  | cons d tl ih =>
    simp only [hexFoldVal, List.foldl_cons]
    calc a ≤ 16 * a + d := by omega
    _ ≤ _ := ih (16 * a + d)

theorem hexFoldVal_cons (a d : Nat) (ds : List Nat) :
    hexFoldVal a (d :: ds) = hexFoldVal (16 * a + d) ds := rfl

theorem hexFoldVal_append (a : Nat) (xs ys : List Nat) :
    hexFoldVal a (xs ++ ys) = hexFoldVal (hexFoldVal a xs) ys := by
  simp [hexFoldVal, List.foldl_append]

theorem hexFoldVal_shift (a : Nat) (ds : List Nat) :
    hexFoldVal a ds = a * 16 ^ ds.length + hexFoldVal 0 ds := by
  induction ds generalizing a with
  | nil => simp [hexFoldVal]
  | cons d tl ih =>
    rw [hexFoldVal_cons, hexFoldVal_cons, ih (16 * a + d), ih (16 * 0 + d)]
    simp only [List.length_cons, pow_succ]
    ring

theorem hexFoldVal_leDigits (k : Nat) : ∀ n, n < 16 ^ k →
    hexFoldVal 0 ((leDigits k n).reverse) = n := by
  induction k with
  | zero => intro n hn; interval_cases n; rfl
  | succ k ih =>
    intro n hn
    have hdivlt : n / 16 < 16 ^ k := by
      rw [Nat.div_lt_iff_lt_mul (by norm_num)]
      calc n < 16 ^ (k + 1) := hn
      _ = 16 ^ k * 16 := by ring
    simp only [leDigits, List.reverse_cons, hexFoldVal_append, ih (n / 16) hdivlt]
    simp [hexFoldVal]
    omega

theorem fromStrRadix16Go_map (bound : Nat) (ds : List Nat) : ∀ acc,
    (∀ d ∈ ds, d < 16) → hexFoldVal acc ds < bound →
    fromStrRadix16Go bound (ds.map hexDigitChar) acc = some (hexFoldVal acc ds) := by
  induction ds with
  | nil => intro acc _ _; rfl
  | cons d tl ih =>
    intro acc hmem hlt
    have hd : d < 16 := hmem d (by simp)
    have hstep : hexFoldVal acc (d :: tl) = hexFoldVal (16 * acc + d) tl := rfl
    have hacc : 16 * acc + d < bound := by
      have := hexFoldVal_ge (16 * acc + d) tl
      rw [hstep] at hlt
      omega
    simp only [List.map_cons, fromStrRadix16Go, hexCharVal_hexDigitChar d hd, hacc, if_true]
    rw [hstep]
    exact ih (16 * acc + d) (fun x hx => hmem x (by simp [hx])) (by rw [hstep] at hlt; exact hlt)

/-! ## Colors and the spectrum encoding (src/lib.rs) -/

/-- `Color` from src/lib.rs: either an RGB triple of bytes or `White`.  In this
snapshot of lib.rs the `White` variant carries no data (no color temperature
field exists anywhere in the cache). -/
inductive Color
  | rgb (r g b : Nat)
  | white
deriving DecidableEq

/-- `PowerState` from src/lib.rs. -/
inductive PowerState
  | on
  | off
deriving DecidableEq

/-- `PowerState: From<bool>` from src/lib.rs. -/
def PowerState.ofBool : Bool → PowerState
  | true => .on
  | false => .off

/-- `Color::to_spectrum` before the final `.unwrap()`: format each component as
two uppercase hex digits (White renders as 255, 255, 255), concatenate, and
re-parse as a `u32`.  `none` is the panic of `.unwrap()`, which cannot occur
for byte-sized components (`to_spectrum_rgb` below). -/
def Color.toSpectrumChecked (c : Color) : Option Nat :=
  match c with
  | .rgb r g b =>
    fromStrRadix16 (2 ^ 32) (formatHexUpper 2 r ++ formatHexUpper 2 g ++ formatHexUpper 2 b)
  | .white =>
    fromStrRadix16 (2 ^ 32)
      (formatHexUpper 2 255 ++ formatHexUpper 2 255 ++ formatHexUpper 2 255)

/-- `Color::to_spectrum` from src/lib.rs. -/
def Color.to_spectrum (c : Color) : Nat := (c.toSpectrumChecked).getD 0

theorem formatHexUpper2_eq (n : Nat) (hn : n < 256) :
    formatHexUpper 2 n = (leDigits 2 n).reverse.map hexDigitChar :=
  formatHexUpper_eq 2 n (by norm_num; omega) (by norm_num)

theorem hexFoldVal_leDigits2 (n : Nat) (hn : n < 256) :
    hexFoldVal 0 ((leDigits 2 n).reverse) = n :=
  hexFoldVal_leDigits 2 n (by norm_num; omega)

theorem toSpectrumChecked_rgb (r g b : Nat) (hr : r < 256) (hg : g < 256) (hb : b < 256) :
    (Color.rgb r g b).toSpectrumChecked = some (65536 * r + 256 * g + b) := by
  have hlen : ∀ m : Nat, ((leDigits 2 m).reverse).length = 2 := by
    intro m; simp [length_leDigits]
  have hmem : ∀ m : Nat, ∀ d ∈ (leDigits 2 m).reverse, d < 16 := by
    intro m d hd
    exact leDigits_mem_lt 2 m d (List.mem_reverse.mp hd)
  have hval : hexFoldVal 0 ((leDigits 2 r).reverse ++ (leDigits 2 g).reverse
      ++ (leDigits 2 b).reverse) = 65536 * r + 256 * g + b := by
    rw [hexFoldVal_append, hexFoldVal_append]
    rw [hexFoldVal_leDigits2 r hr]
    rw [hexFoldVal_shift r ((leDigits 2 g).reverse), hexFoldVal_leDigits2 g hg, hlen g]
    rw [hexFoldVal_shift _ ((leDigits 2 b).reverse), hexFoldVal_leDigits2 b hb, hlen b]
    ring
  have hformat : formatHexUpper 2 r ++ formatHexUpper 2 g ++ formatHexUpper 2 b
      = ((leDigits 2 r).reverse ++ (leDigits 2 g).reverse
          ++ (leDigits 2 b).reverse).map hexDigitChar := by
    rw [formatHexUpper2_eq r hr, formatHexUpper2_eq g hg, formatHexUpper2_eq b hb]
    simp [List.map_append]
  have hne : ((leDigits 2 r).reverse ++ (leDigits 2 g).reverse
      ++ (leDigits 2 b).reverse).map hexDigitChar ≠ [] := by
    intro h
    have h2 := congrArg List.length h
    simp only [List.length_map, List.length_append, List.length_reverse, length_leDigits,
      List.length_nil] at h2
    omega
  show fromStrRadix16 (2 ^ 32) _ = _
  rw [hformat]
  have hbound : hexFoldVal 0 ((leDigits 2 r).reverse ++ (leDigits 2 g).reverse
      ++ (leDigits 2 b).reverse) < 2 ^ 32 := by
    rw [hval]; omega
  have hmem3 : ∀ d ∈ (leDigits 2 r).reverse ++ (leDigits 2 g).reverse
      ++ (leDigits 2 b).reverse, d < 16 := by
    intro d hd
    simp only [List.mem_append] at hd
    rcases hd with (h | h) | h
    · exact hmem r d h
    · exact hmem g d h
    · exact hmem b d h
  have hgo := fromStrRadix16Go_map (2 ^ 32) ((leDigits 2 r).reverse ++ (leDigits 2 g).reverse
      ++ (leDigits 2 b).reverse) 0 hmem3 hbound
  match hcs : ((leDigits 2 r).reverse ++ (leDigits 2 g).reverse
      ++ (leDigits 2 b).reverse).map hexDigitChar with
  | [] => exact absurd hcs hne
  | c :: cs =>
    rw [hcs] at hgo
    simp only [fromStrRadix16, hgo, hval]

theorem to_spectrum_rgb (r g b : Nat) (hr : r < 256) (hg : g < 256) (hb : b < 256) :
    (Color.rgb r g b).to_spectrum = 65536 * r + 256 * g + b := by
  simp [Color.to_spectrum, toSpectrumChecked_rgb r g b hr hg hb]

theorem to_spectrum_white : Color.white.to_spectrum = 16777215 := by decide

/-! ## The EXECUTE color decode (src/fulfill.rs, lines 196-222)

The spectrum integer is rendered with format spec 06X, the characters are split
into chunks of two, and each chunk is parsed as a `u8` from its first two
bytes.  A trailing one-character chunk makes the `byte[1]` index panic, modeled
as `none`. -/

/-- Rust `slice::chunks(2)`: successive two-element chunks, the last possibly
shorter. -/
def chunks2 : List Char → List (List Char)
  | [] => []
  | [a] => [[a]]
  | a :: b :: rest => [a, b] :: chunks2 rest

/-- One chunk of the EXECUTE decode: `u8::from_str_radix` on the two characters
`byte[0]`, `byte[1]`.  A one-character chunk panics on `byte[1]` (`none`); an
unparseable pair panics in `.unwrap()` (`none`). -/
def parseChunk (chunk : List Char) : Option Nat :=
  match chunk with
  | b0 :: b1 :: _ => fromStrRadix16 (2 ^ 8) [b0, b1]
  | _ => none

/-- The `.map(...).collect::<Vec<_>>()` over the chunks: any panic in an element
makes the whole collection panic. -/
def collectChunks : List (List Char) → Option (List Nat)
  | [] => some []
  | c :: cs =>
    match parseChunk c, collectChunks cs with
    | some v, some vs => some (v :: vs)
    | _, _ => none

/-- The full EXECUTE spectrum decode: format with spec 06X, chunk, parse. -/
def decodeSpectrum (n : Nat) : Option (List Nat) :=
  collectChunks (chunks2 (formatHexUpper 6 n))

/-- The `Color::Rgb { r: color[0], g: color[1], b: color[2] }` construction;
`none` also covers the (unreachable) out-of-bounds indexing panic. -/
def execRgbColor (n : Nat) : Option Color :=
  match decodeSpectrum n with
  | some (b0 :: b1 :: b2 :: _) => some (.rgb b0 b1 b2)
  | _ => none

theorem parseChunk_hex (a b : Nat) (ha : a < 16) (hb : b < 16) :
    parseChunk [hexDigitChar a, hexDigitChar b] = some (16 * a + b) := by
  have h := fromStrRadix16Go_map (2 ^ 8) [a, b] 0
    (by intro d hd; simp at hd; omega)
    (by simp [hexFoldVal]; omega)
  simp only [List.map_cons, List.map_nil] at h
  simp only [parseChunk, fromStrRadix16, h]
  simp [hexFoldVal]

theorem collectChunks_odd : ∀ k (cs : List Char), cs.length ≤ k → cs.length % 2 = 1 →
    collectChunks (chunks2 cs) = none := by
  intro k
  induction k with
  | zero =>
    intro cs hlen hodd
    interval_cases h : cs.length
    · omega
  | succ k ih =>
    intro cs hlen hodd
    match cs with
    | [] => simp at hodd
    | [a] => rfl
    | a :: b :: rest =>
      simp only [List.length_cons] at hlen hodd
      have h1 : rest.length ≤ k := by omega
      have h2 : rest.length % 2 = 1 := by omega
      simp only [chunks2, collectChunks, ih rest h1 h2]
      match parseChunk [a, b] with
      | none => rfl
      | some v => rfl

theorem decodeSpectrum_odd (n : Nat) (h : (formatHexUpper 6 n).length % 2 = 1) :
    decodeSpectrum n = none :=
  collectChunks_odd (formatHexUpper 6 n).length (formatHexUpper 6 n) le_rfl h

theorem decodeSpectrum_small (n : Nat) (hn : n < 16 ^ 6) :
    decodeSpectrum n = some [n / 65536, n / 256 % 256, n % 256] := by
  have hfmt : formatHexUpper 6 n = (leDigits 6 n).reverse.map hexDigitChar :=
    formatHexUpper_eq 6 n hn (by norm_num)
  have hdl : (leDigits 6 n).reverse
      = [n / 16 ^ 5 % 16, n / 16 ^ 4 % 16, n / 16 ^ 3 % 16,
         n / 16 ^ 2 % 16, n / 16 % 16, n % 16] := by
    show (leDigits 6 n).reverse = _
    simp only [leDigits, List.reverse_cons, List.reverse_nil, List.nil_append,
      List.cons_append, Nat.div_div_eq_div_mul]
    norm_num
  have hd : ∀ i : Nat, n / 16 ^ i % 16 < 16 := fun i => Nat.mod_lt _ (by norm_num)
  rw [decodeSpectrum, hfmt, hdl]
  simp only [List.map_cons, List.map_nil, chunks2]
  rw [collectChunks, parseChunk_hex _ _ (hd 5) (hd 4)]
  rw [collectChunks, parseChunk_hex _ _ (hd 3) (hd 2)]
  rw [collectChunks, parseChunk_hex (n / 16 % 16) (n % 16)
    (Nat.mod_lt _ (by norm_num)) (Nat.mod_lt _ (by norm_num))]
  simp only [collectChunks]
  have e1 : 16 * (n / 16 ^ 5 % 16) + n / 16 ^ 4 % 16 = n / 65536 := by
    have h5 : n / 16 ^ 5 = n / 65536 / 16 := by
      rw [Nat.div_div_eq_div_mul]; norm_num
    have h4 : n / 16 ^ 4 = n / 65536 := by norm_num
    rw [h5, h4]
    have : n / 65536 < 256 := by
      have : n < 65536 * 256 := by
        calc n < 16 ^ 6 := hn
        _ = 65536 * 256 := by norm_num
      omega
    omega
  have e2 : 16 * (n / 16 ^ 3 % 16) + n / 16 ^ 2 % 16 = n / 256 % 256 := by
    have h3 : n / 16 ^ 3 = n / 256 / 16 := by
      rw [Nat.div_div_eq_div_mul]; norm_num
    have h2 : n / 16 ^ 2 = n / 256 := by norm_num
    rw [h3, h2]
    omega
  have e3 : 16 * (n / 16 % 16) + n % 16 = n % 256 := by omega
  rw [e1, e2, e3]

theorem execRgbColor_small (n : Nat) (hn : n < 16 ^ 6) :
    execRgbColor n = some (.rgb (n / 65536) (n / 256 % 256) (n % 256)) := by
  rw [execRgbColor, decodeSpectrum_small n hn]

/-! ## UUID identifiers

Registry keys are `uuid::Uuid` values; lookups parse the incoming id string
with `Uuid::parse_str` (src/lib.rs, `set_state` and friends) and entries render
their id with `Uuid::to_string` (canonical lowercase hyphenated form).
Modelled from the documented grammar of the external `uuid` crate: the simple
(32 hex digits), hyphenated (8-4-4-4-12), braced, and URN textual forms are
accepted; anything else fails.  A parsed value is represented by its canonical
rendering. -/

/-- Whether `c` is a hexadecimal digit as accepted by the uuid parser. -/
def isHexDigit (c : Char) : Bool := (hexCharVal c).isSome

/-- Lowercase a hex digit character (A to F map to a to f), as in the canonical
rendering of a UUID. -/
def hexLower (c : Char) : Char :=
  if 65 ≤ c.toNat ∧ c.toNat ≤ 70 then Char.ofNat (c.toNat + 32) else c

/-- Hyphenate 32 hex characters into the canonical 8-4-4-4-12 form. -/
def hyphenate (cs : List Char) : String :=
  ⟨cs.take 8 ++ '-' :: (cs.drop 8).take 4 ++ '-' :: (cs.drop 12).take 4
    ++ '-' :: (cs.drop 16).take 4 ++ '-' :: cs.drop 20⟩

/-- Accept exactly 32 hex characters and render them canonically. -/
def uuidFromHex32 (cs : List Char) : Option String :=
  if cs.length = 32 ∧ cs.all isHexDigit then some (hyphenate (cs.map hexLower)) else none

/-- Strip the four hyphens of the 8-4-4-4-12 form, checking their positions. -/
def stripHyphens (cs : List Char) : Option (List Char) :=
  if cs.length = 36 ∧ cs.get? 8 = some '-' ∧ cs.get? 13 = some '-'
      ∧ cs.get? 18 = some '-' ∧ cs.get? 23 = some '-' then
    some (cs.filter (fun c => c ≠ '-'))
  else none

/-- `uuid::Uuid::parse_str` composed with `Uuid::to_string`: parse any of the
four textual forms and return the canonical lowercase hyphenated rendering. -/
def uuidParse (s : String) : Option String :=
  let cs := s.toList
  let core :=
    match cs with
    | '{' :: rest => if rest.getLast? = some '}' then rest.dropLast else cs
    | 'u' :: 'r' :: 'n' :: ':' :: 'u' :: 'u' :: 'i' :: 'd' :: ':' :: rest => rest
    | _ => cs
  if core.length = 32 then uuidFromHex32 core
  else if core.length = 36 then
    match stripHyphens core with
    | some stripped => uuidFromHex32 stripped
    | none => none
  else none

/-! ## The cached state of one Light Entry (src/lib.rs) -/

/-- `AtomicColor` from src/lib.rs: one byte cell per RGB component plus the
white flag, modeled as plain fields since every registry operation is a single
serialized access. -/
structure AtomicColor where
  red : Nat
  green : Nat
  blue : Nat
  white : Bool
deriving DecidableEq

/-- `AtomicColor::new`: the white flag is set and the component cells are
initialized to 255. -/
def AtomicColor.new : AtomicColor :=
  { white := true, red := 255, green := 255, blue := 255 }

/-- `AtomicColor::store`: a White store sets the white flag; an Rgb store
writes the three component cells.  As in the source, an Rgb store leaves the
white flag untouched. -/
def AtomicColor.store (c : AtomicColor) (color : Color) : AtomicColor :=
  match color with
  | .white => { c with white := true }
  | .rgb r g b => { c with red := r, green := g, blue := b }

/-- `AtomicColor::load`: White while the white flag is set, otherwise the RGB
triple from the cells. -/
def AtomicColor.load (c : AtomicColor) : Color :=
  if c.white then .white else .rgb c.red c.green c.blue

/-! ## Capability backends, Light Entries and the Registry (src/lib.rs) -/

/-- Behavior of one `Box<dyn Light + Sync + Send>` capability: each operation
answers `Ok` or a backend-specific error, modeled as a `Nat` code standing for
the boxed error object.  `uniqueIdResp` models the `unique_id` method that the
integration impls provide (src/integrations and src/api.rs); `App::push_light`
in this snapshot of src/lib.rs never consults it. -/
structure Backend where
  name : String
  uniqueIdResp : Except Nat String
  powerResp : PowerState → Except Nat Unit
  brightnessResp : Nat → Except Nat Unit
  colorResp : Color → Except Nat Unit

/-- `LightWrapper` from src/lib.rs: backend handle, id, and the cached power,
brightness and color cells. -/
structure LightWrapper where
  light : Backend
  id : String
  brightness : Nat
  is_on : Bool
  color : AtomicColor

/-- `Error` from src/lib.rs: a forwarded backend error, a UUID parse error, or
a missing entry. -/
inductive Error
  | light (e : Nat)
  | uuid
  | absent
deriving DecidableEq

/-- `App` from src/lib.rs.  Only `by_id` is modeled: the `by_name` and
`groups` maps are never written or read by any operation in scope here
(`push_light` inserts solely into `by_id`, and the dispatch operations read
solely from it). -/
structure App where
  by_id : List (String × LightWrapper)

/-- `App::new`. -/
def App.new : App := { by_id := [] }

/-- Calls observed at the capability boundary, recorded so that theorems can
speak about which backend received which command. -/
inductive CallEvent
  | power (id : String) (state : PowerState)
  | brightness (id : String) (value : Nat)
  | color (id : String) (value : Color)
deriving DecidableEq

/-- Outcome of one registry dispatch operation: the updated registry, the
backend calls that were made, and the result returned to the caller. -/
structure OpResult where
  app : App
  calls : List CallEvent
  result : Except Error Unit

/-- Apply `f` to the wrapper stored under key `u` (the shared-`Arc` in-place
cache mutation of the source). -/
def App.updateWrapper (app : App) (u : String) (f : LightWrapper → LightWrapper) : App :=
  { app with by_id := app.by_id.map (fun p => if p.1 = u then (p.1, f p.2) else p) }

/-- `App::push_light` from src/lib.rs: a fresh v4 UUID is generated (passed in
here as `fresh`, standing for `Uuid::new_v4().to_string()`), a wrapper with
default cache values is built around the backend, and inserted into `by_id`.
The backend `unique_id` is never consulted, nothing is returned to the caller,
and the subsequent detached `request_sync` task does not touch the registry. -/
def App.push_light (app : App) (light : Backend) (fresh : String) : App :=
  { app with
    by_id := (fresh,
      { light := light, id := fresh, brightness := 0, is_on := false,
        color := AtomicColor.new }) :: app.by_id }

/-- `App::set_state` from src/lib.rs: parse the id (`Error::Uuid` on failure),
look the wrapper up (`Error::Absent` if missing), store the new power flag
into the cache, then invoke the backend `set_power_state`; a backend error is
returned as `Error::Light` with the cache left updated. -/
def App.set_state (app : App) (id : String) (state : PowerState) : OpResult :=
  match uuidParse id with
  | none => ⟨app, [], .error .uuid⟩
  | some u =>
    match app.by_id.lookup u with
    | none => ⟨app, [], .error .absent⟩
    | some wrapper =>
      ⟨app.updateWrapper u (fun w =>
          { w with is_on := match state with | .on => true | .off => false }),
        [.power wrapper.id state],
        match wrapper.light.powerResp state with
        | .ok _ => .ok ()
        | .error e => .error (.light e)⟩

/-- `App::set_brightness` from src/lib.rs, symmetric to `set_state`. -/
def App.set_brightness (app : App) (id : String) (brightness : Nat) : OpResult :=
  match uuidParse id with
  | none => ⟨app, [], .error .uuid⟩
  | some u =>
    match app.by_id.lookup u with
    | none => ⟨app, [], .error .absent⟩
    | some wrapper =>
      ⟨app.updateWrapper u (fun w => { w with brightness := brightness }),
        [.brightness wrapper.id brightness],
        match wrapper.light.brightnessResp brightness with
        | .ok _ => .ok ()
        | .error e => .error (.light e)⟩

/-- `App::set_color` from src/lib.rs, symmetric to `set_state` with the cache
update going through `AtomicColor::store`. -/
def App.set_color (app : App) (id : String) (color : Color) : OpResult :=
  match uuidParse id with
  | none => ⟨app, [], .error .uuid⟩
  | some u =>
    match app.by_id.lookup u with
    | none => ⟨app, [], .error .absent⟩
    | some wrapper =>
      ⟨app.updateWrapper u (fun w => { w with color := w.color.store color }),
        [.color wrapper.id color],
        match wrapper.light.colorResp color with
        | .ok _ => .ok ()
        | .error e => .error (.light e)⟩

/-! ## The Group composite (src/api.rs) -/

/-- `Group` from src/api.rs: a display name, the member id list, and the
registration-time id. -/
structure Group where
  name : String
  lights : List String
  id : String

/-- The member loop of `Group::set_power_state` (src/api.rs): dispatch
`App::set_state` to each member id in order, stopping at the first failure and
returning that error (boxed in the source, forwarded here). -/
def groupPowerFanout (app : App) : List String → PowerState → OpResult
  | [], _ => ⟨app, [], .ok ()⟩
  | id :: rest, state =>
    let r := app.set_state id state
    match r.result with
    | .error e => ⟨r.app, r.calls, .error e⟩
    | .ok _ =>
      let r2 := groupPowerFanout r.app rest state
      ⟨r2.app, r.calls ++ r2.calls, r2.result⟩

/-- `Group::set_power_state` from src/api.rs. -/
def Group.set_power_state (g : Group) (app : App) (state : PowerState) : OpResult :=
  groupPowerFanout app g.lights state

/-! ## The Smart-Home intent translator (src/fulfill.rs) -/

/-- Request-side `CommandDevice`. -/
structure CommandDevice where
  id : String
deriving DecidableEq

/-- `QueryColor` from src/fulfill.rs, used both in QUERY responses and EXECUTE
color parameters. -/
inductive QueryColor
  | white (temperature : Nat) (name : String)
  | rgb (spectrum_rgb : Nat) (name : String)
deriving DecidableEq

/-- `CommandParams` from src/fulfill.rs.  The serde type of the brightness
field is `u8`, so a deserialized value is below 256. -/
inductive CommandParams
  | onOff (o : Bool)
  | brightness (brightness : Nat)
  | color (color : QueryColor)
deriving DecidableEq

/-- `CommandCommand` from src/fulfill.rs. -/
structure CommandCommand where
  command : String
  params : CommandParams
deriving DecidableEq

/-- `Command` from src/fulfill.rs. -/
structure Command where
  devices : List CommandDevice
  execution : List CommandCommand
deriving DecidableEq

/-- `IntentPayload` from src/fulfill.rs. -/
inductive IntentPayload
  | execute (commands : List Command)
  | query (devices : List CommandDevice)
deriving DecidableEq

/-- `Input` from src/fulfill.rs. -/
structure Input where
  intent : String
  payload : Option IntentPayload
deriving DecidableEq

/-- `FulfillmentRequest` from src/fulfill.rs. -/
structure FulfillmentRequest where
  request_id : String
  inputs : List Input
deriving DecidableEq

/-- `ExecStates` from src/fulfill.rs. -/
structure ExecStates where
  online : Bool
deriving DecidableEq

/-- `ExecCommand` from src/fulfill.rs: the per-batch entry of an EXECUTE
response. -/
structure ExecCommand where
  ids : List String
  status : String
  states : ExecStates
deriving DecidableEq

/-- `QueryDevice` from src/fulfill.rs: the per-device snapshot of a QUERY
response.  The source field named like the power flag of the wire format is a
reserved word here, so it is spelled `is_on`. -/
structure QueryDevice where
  status : String
  online : Bool
  brightness : Nat
  is_on : Bool
  color : QueryColor
deriving DecidableEq

/-- `ColorTemperatureRange` from src/fulfill.rs. -/
structure ColorTemperatureRange where
  temperature_min_k : Nat
  temperature_max_k : Nat
deriving DecidableEq

/-- `DeviceAttributes` from src/fulfill.rs. -/
structure DeviceAttributes where
  color_model : String
  color_temperature_range : ColorTemperatureRange
deriving DecidableEq

/-- `Name` from src/fulfill.rs. -/
structure Name where
  name : String
deriving DecidableEq

/-- `Device` from src/fulfill.rs: one SYNC device descriptor. -/
structure Device where
  id : String
  ty : String
  traits : List String
  name : Name
  will_report_state : Bool
  attributes : DeviceAttributes
deriving DecidableEq

/-- `Payload` from src/fulfill.rs.  The QUERY device map is modeled as an
association list in registry enumeration order. -/
inductive Payload
  | sync (agent_user_id : String) (devices : List Device)
  | query (agent_user_id : String) (devices : List (String × QueryDevice))
  | execute (commands : List ExecCommand)
deriving DecidableEq

/-- `FulfillmentResponse` from src/fulfill.rs. -/
structure FulfillmentResponse where
  request_id : String
  payload : Option Payload
deriving DecidableEq

/-- The QUERY brightness rendering `((brightness as f32 / 255.) * 100.) as u8`
(src/fulfill.rs, line 254).  For every cache value `b ≤ 255` the `f32`
computation truncates to exactly `b * 100 / 255`: each of the two rounded
operations carries a relative error below `2 ^ (-23)`, the exact value
`20 * b / 51` is at distance at least `1 / 51` from any integer it does not
equal, and at the six integer points `b` in 0, 51, 102, 153, 204, 255 the
rounded `f32` result is not below the integer, so the float truncation agrees
with exact integer division on the whole `u8` domain. -/
def queryBrightnessOut (b : Nat) : Nat := b * 100 / 255

/-- The EXECUTE brightness conversion
`((brightness as f32 / 100.) * 255.) as u8` (src/fulfill.rs, line 192).  For
every percentage `p ≤ 255` (the serde `u8` domain) the `f32` computation
followed by the saturating float-to-`u8` cast equals
`min 255 (p * 255 / 100)`: the same error analysis as `queryBrightnessOut`
applies (exact values `51 * p / 20` are at distance at least `1 / 20` from
integers they do not equal, and the rounded result at the integer points is
not below the integer), and results above 255 saturate to 255. -/
def execBrightnessIn (p : Nat) : Nat := min 255 (p * 255 / 100)

/-- The SYNC device descriptor built for one registry entry
(src/fulfill.rs, lines 151-168). -/
def deviceOf (w : LightWrapper) : Device :=
  { id := w.id
    ty := "action.devices.types.LIGHT"
    traits := ["action.devices.traits.OnOff", "action.devices.traits.ColorSetting",
      "action.devices.traits.Brightness"]
    name := ⟨w.light.name⟩
    will_report_state := false
    attributes := ⟨"rgb", ⟨2000, 7500⟩⟩ }

/-- The QUERY snapshot built for one registry entry
(src/fulfill.rs, lines 250-262): always online, truncated percentage
brightness, cached power flag, and the cached color rendered as a spectrum
integer through `AtomicColor::load` and `Color::to_spectrum`. -/
def queryDeviceOf (w : LightWrapper) : QueryDevice :=
  { online := true
    brightness := queryBrightnessOut w.brightness
    is_on := w.is_on
    status := "SUCCESS"
    color := .rgb (w.color.load.to_spectrum) "" }

/-- The QUERY branch (src/fulfill.rs, lines 245-268): every registry entry
whose id occurs in the requested set contributes its snapshot, keyed by id;
requested ids with no entry are silently omitted. -/
def queryDevices (app : App) (requested : List CommandDevice) :
    List (String × QueryDevice) :=
  app.by_id.filterMap (fun p =>
    if requested.any (fun dev => dev.id == p.2.id) then
      some (p.2.id, queryDeviceOf p.2)
    else none)

/-- One `(device, operation)` step of the EXECUTE branch
(src/fulfill.rs, lines 184-230).  The registry result is discarded
(`let _ = ...`); `none` is the panic of the RGB hex decode. -/
def execParams (app : App) (devId : String) (p : CommandParams) :
    Option (App × List CallEvent) :=
  match p with
  | .onOff o =>
    let r := app.set_state devId (PowerState.ofBool o)
    some (r.app, r.calls)
  | .brightness b =>
    let r := app.set_brightness devId (execBrightnessIn b)
    some (r.app, r.calls)
  | .color (.rgb spectrum _) =>
    match execRgbColor spectrum with
    | none => none
    | some c =>
      let r := app.set_color devId c
      some (r.app, r.calls)
  | .color (.white _ _) =>
    let r := app.set_color devId .white
    some (r.app, r.calls)

/-- The inner operation loop of the EXECUTE branch for one device. -/
def execOps (app : App) (devId : String) : List CommandCommand →
    Option (App × List CallEvent)
  | [] => some (app, [])
  | c :: cs =>
    match execParams app devId c.params with
    | none => none
    | some (app1, ev1) =>
      match execOps app1 devId cs with
      | none => none
      | some (app2, ev2) => some (app2, ev1 ++ ev2)

/-- The device loop of the EXECUTE branch for one command batch. -/
def execDevices (app : App) (execution : List CommandCommand) : List CommandDevice →
    Option (App × List CallEvent)
  | [] => some (app, [])
  | d :: ds =>
    match execOps app d.id execution with
    | none => none
    | some (app1, ev1) =>
      match execDevices app1 execution ds with
      | none => none
      | some (app2, ev2) => some (app2, ev1 ++ ev2)

/-- The command loop of the EXECUTE branch. -/
def execAll (app : App) : List Command → Option (App × List CallEvent)
  | [] => some (app, [])
  | c :: cs =>
    match execDevices app c.execution c.devices with
    | none => none
    | some (app1, ev1) =>
      match execAll app1 cs with
      | none => none
      | some (app2, ev2) => some (app2, ev1 ++ ev2)

/-- The response entry pushed for one command batch
(src/fulfill.rs, lines 177-181): the batch ids, status SUCCESS and online,
regardless of what the per-device dispatches later return. -/
def execResponseOf (c : Command) : ExecCommand :=
  { ids := c.devices.map (fun d => d.id), status := "SUCCESS", states := ⟨true⟩ }

/-- The input loop of `fulfill` (src/fulfill.rs, lines 145-274): inputs are
scanned in order until the first SYNC, EXECUTE or QUERY intent, which
produces the payload (and, for EXECUTE, the registry mutations); other
intents are skipped.  `none` is a panic escaping the handler. -/
def fulfillGo (app : App) : List Input → Option (App × Option Payload × List CallEvent)
  | [] => some (app, none, [])
  | input :: rest =>
    if input.intent = "action.devices.SYNC" then
      some (app, some (.sync "haha.yes" (app.by_id.map (fun p => deviceOf p.2))), [])
    else if input.intent = "action.devices.EXECUTE" then
      match input.payload with
      | some (.execute commands) =>
        match execAll app commands with
        | none => none
        | some (app2, events) =>
          some (app2, some (.execute (commands.map execResponseOf)), events)
      | _ => some (app, some (.execute []), [])
    else if input.intent = "action.devices.QUERY" then
      match input.payload with
      | some (.query devices) =>
        some (app, some (.query "haha.yes" (queryDevices app devices)), [])
      | _ => some (app, none, [])
    else fulfillGo app rest

/-- `fulfill` from src/fulfill.rs. -/
def fulfill (request : FulfillmentRequest) (app : App) :
    Option (App × FulfillmentResponse × List CallEvent) :=
  match fulfillGo app request.inputs with
  | none => none
  | some (app2, payload, events) => some (app2, ⟨request.request_id, payload⟩, events)

/-! ## Registry lemmas -/

theorem lookup_update (l : List (String × LightWrapper)) (u v : String)
    (f : LightWrapper → LightWrapper) :
    (l.map (fun p => if p.1 = u then (p.1, f p.2) else p)).lookup v
      = (l.lookup v).map (fun w => if v = u then f w else w) := by
  induction l with
  | nil => rfl
  | cons p tl ih =>
    obtain ⟨k, w⟩ := p
    have hhead : (if (k, w).1 = u then ((k, w).1, f (k, w).2) else (k, w))
        = (k, if k = u then f w else w) := by
      by_cases h : k = u <;> simp [h]
    rw [List.map_cons, hhead]
    by_cases hvk : v = k
    · subst hvk
      simp [List.lookup]
    · have h1 : (v == k) = false := by simp [hvk]
      simp [List.lookup, h1, ih]

theorem updateWrapper_lookup (app : App) (u v : String) (f : LightWrapper → LightWrapper) :
    (app.updateWrapper u f).by_id.lookup v
      = (app.by_id.lookup v).map (fun w => if v = u then f w else w) :=
  lookup_update app.by_id u v f

/-- Whether one member id would be dispatched successfully against `app`:
its id parses, an entry exists, and the backend accepts the power command. -/
def memberCallOk (app : App) (state : PowerState) (id : String) : Bool :=
  match uuidParse id with
  | none => false
  | some u =>
    match app.by_id.lookup u with
    | none => false
    | some w => match w.light.powerResp state with | .ok _ => true | .error _ => false

theorem set_state_result_ok (app : App) (id : String) (s : PowerState) :
    ((app.set_state id s).result = .ok ()) ↔ memberCallOk app s id = true := by
  cases hp : uuidParse id with
  | none => simp [App.set_state, memberCallOk, hp]
  | some u =>
    cases hl : app.by_id.lookup u with
    | none => simp [App.set_state, memberCallOk, hp, hl]
    | some w =>
      cases hr : w.light.powerResp s with
      | ok a => simp [App.set_state, memberCallOk, hp, hl, hr]
      | error e => simp [App.set_state, memberCallOk, hp, hl, hr]

theorem memberCallOk_set_state (app : App) (j : String) (s state : PowerState) (id : String) :
    memberCallOk ((app.set_state j s).app) state id = memberCallOk app state id := by
  cases hpj : uuidParse j with
  | none => simp [App.set_state, hpj]
  | some uj =>
    cases hlj : app.by_id.lookup uj with
    | none => simp [App.set_state, hpj, hlj]
    | some wj =>
      have happ : (app.set_state j s).app = app.updateWrapper uj (fun w =>
          { w with is_on := match s with | .on => true | .off => false }) := by
        simp [App.set_state, hpj, hlj]
      rw [happ]
      cases hpi : uuidParse id with
      | none => simp [memberCallOk, hpi]
      | some u =>
        simp only [memberCallOk, hpi, updateWrapper_lookup]
        cases hl : app.by_id.lookup u with
        | none => rfl
        | some w =>
          by_cases h : u = uj
          · subst h; simp
          · simp [h]

theorem groupPowerFanout_ok (state : PowerState) (ids : List String) : ∀ (app : App),
    ((groupPowerFanout app ids state).result = .ok ())
      ↔ ∀ id ∈ ids, memberCallOk app state id = true := by
  induction ids with
  | nil => intro app; simp [groupPowerFanout]
  | cons id rest ih =>
    intro app
    cases hres : (app.set_state id state).result with
    | error e =>
      have hmem : memberCallOk app state id ≠ true := by
        intro h
        have h2 := (set_state_result_ok app id state).mpr h
        rw [hres] at h2
        cases h2
      simp only [groupPowerFanout, hres]
      constructor
      · intro h; cases h
      · intro h
        exact absurd (h id (by simp)) hmem
    | ok a =>
      have hmem : memberCallOk app state id = true :=
        (set_state_result_ok app id state).mp (by rw [hres])
      simp only [groupPowerFanout, hres]
      rw [ih ((app.set_state id state).app)]
      constructor
      · intro h x hx
        rcases List.mem_cons.mp hx with h1 | h1
        · subst h1; exact hmem
        · have h2 := h x h1
          rwa [memberCallOk_set_state] at h2
      · intro h x hx
        rw [memberCallOk_set_state]
        exact h x (List.mem_cons_of_mem _ hx)

/-! ## Concrete fixtures used by witnesses and counterexamples -/

/-- A backend that accepts every command. -/
def okBackend : Backend :=
  { name := "Lamp", uniqueIdResp := .ok "unit-1",
    powerResp := fun _ => .ok (), brightnessResp := fun _ => .ok (),
    colorResp := fun _ => .ok () }

/-- A backend that rejects every command with error code 7 and whose
`unique_id` fails. -/
def failBackend : Backend :=
  { name := "Flaky", uniqueIdResp := .error 7,
    powerResp := fun _ => .error 7, brightnessResp := fun _ => .error 7,
    colorResp := fun _ => .error 7 }

/-- A canonical UUID string, standing for one generated `Uuid::new_v4`. -/
def uuidA : String := "aaaaaaaa-aaaa-aaaa-aaaa-aaaaaaaaaaaa"

/-- A second canonical UUID string, distinct from `uuidA`. -/
def uuidB : String := "bbbbbbbb-bbbb-bbbb-bbbb-bbbbbbbbbbbb"

/-- Modelled from the spec: the operation written `round(a / b)` there, i.e.
rounding the exact rational `a / b` to the nearest integer, halves up. -/
def roundDiv (a b : Nat) : Nat := (2 * a + b) / (2 * b)

/-- Whether an input carries one of the three intents the `fulfill` loop
handles (and breaks at). -/
def Input.recognized (i : Input) : Bool :=
  i.intent == "action.devices.SYNC" || i.intent == "action.devices.EXECUTE"
    || i.intent == "action.devices.QUERY"

/-! ## The claims -/

/-- The registry of the C1 scenario: one light whose cache was set through the
registry operations to power On, brightness 128, color Rgb 255 0 0. -/
def c1App : App :=
  ((((App.new.push_light okBackend uuidA).set_state uuidA .on).app.set_brightness
    uuidA 128).app.set_color uuidA (.rgb 255 0 0)).app

/-- The C1 QUERY request for the registered id. -/
def c1Request : FulfillmentRequest :=
  ⟨"req-1", [⟨"action.devices.QUERY", some (.query [⟨uuidA⟩])⟩]⟩

/-- C1: evaluating the QUERY scenario on the code.  After power On,
brightness 128, color Rgb 255 0 0 were set through the registry operations,
the QUERY response for the id carries status SUCCESS, online true, on true,
brightness 50 — but spectrumRGB 16777215 (hex FFFFFF), not 16711680
(hex FF0000) as the claim states: `AtomicColor.store` of an Rgb value never
clears the white flag set at creation, so `AtomicColor.load` still answers
White and the stored RGB triple is unobservable. -/
theorem c1_query_scenario_reports_white_spectrum :
    (fulfill c1Request c1App).map (fun r => r.2.1.payload)
      = some (some (.query "haha.yes"
          [(uuidA, ⟨"SUCCESS", true, 50, true, .rgb 16777215 ""⟩)]))
    ∧ (16777215 : Nat) ≠ 16711680 := by
  exact ⟨by decide, by decide⟩

/-- C4: `App.push_light` never consults the backend `unique_id`.  For every
registry, every backend — including one whose `unique_id` fails — and every
generated fresh v4 id, a Light Entry with default cache values is inserted
under the fresh id (and nothing is returned to the caller). -/
theorem c4_push_light_ignores_unique_id (app : App) (light : Backend) (fresh : String) :
    (app.push_light light fresh).by_id.lookup fresh
      = some { light := light, id := fresh, brightness := 0, is_on := false,
               color := AtomicColor.new } := by
  simp [App.push_light, List.lookup]

/-- C5: round-trip of the spectrum encoding.  For every cached Rgb color with
byte components, encoding with `Color.to_spectrum` and decoding the resulting
integer the way EXECUTE does (hex formatting, two-character chunking, byte
parsing) gives back exactly the same components. -/
theorem c5_spectrum_round_trip (r g b : Nat) (hr : r < 256) (hg : g < 256) (hb : b < 256) :
    execRgbColor ((Color.rgb r g b).to_spectrum) = some (Color.rgb r g b) := by
  rw [to_spectrum_rgb r g b hr hg hb]
  rw [execRgbColor_small (65536 * r + 256 * g + b) (by norm_num; omega)]
  have h1 : (65536 * r + 256 * g + b) / 65536 = r := by omega
  have h2 : (65536 * r + 256 * g + b) / 256 % 256 = g := by omega
  have h3 : (65536 * r + 256 * g + b) % 256 = b := by omega
  rw [h1, h2, h3]

/-- Witness for C5 at the concrete components 18, 52, 200. -/
theorem c5_spectrum_round_trip_witness :
    (18 : Nat) < 256 ∧ (52 : Nat) < 256 ∧ (200 : Nat) < 256
    ∧ execRgbColor ((Color.rgb 18 52 200).to_spectrum) = some (Color.rgb 18 52 200) :=
  ⟨by norm_num, by norm_num, by norm_num,
    c5_spectrum_round_trip 18 52 200 (by norm_num) (by norm_num) (by norm_num)⟩

/-- An EXECUTE request carrying a White color command with the given
temperature for the fixture light. -/
def whiteExecRequest (t : Nat) : FulfillmentRequest :=
  ⟨"req-w", [⟨"action.devices.EXECUTE", some (.execute
    [⟨[⟨uuidA⟩], [⟨"action.devices.commands.ColorAbsolute", .color (.white t "warm")⟩]⟩])⟩]⟩

/-- Counterexample to C9: the cached color stores no temperature.  Executing a
White color command with temperature 2000 and with temperature 6500 leaves the
registry (and the whole fulfillment outcome) in identical states, although the
temperatures differ — so a Light Entry cached color cannot equal a White value
carrying a specific temperature such as 6500. -/
theorem c9_counterexample :
    fulfill (whiteExecRequest 2000) (App.new.push_light okBackend uuidA)
      = fulfill (whiteExecRequest 6500) (App.new.push_light okBackend uuidA)
    ∧ (2000 : Nat) ≠ 6500 :=
  ⟨rfl, by decide⟩

/-- C9 (amended): the cached color of a Light Entry is always one of the two
variants Rgb or White, where White carries no temperature field, and at the
moment of creation the cache loads as White (the white flag is set, with the
RGB cells initialized to 255). -/
theorem c9_cached_color_variants :
    (∀ c : Color, (∃ r g b, c = .rgb r g b) ∨ c = .white)
    ∧ AtomicColor.new.load = .white := by
  constructor
  · intro c
    cases c with
    | rgb r g b => exact .inl ⟨r, g, b, rfl⟩
    | white => exact .inr rfl
  · rfl

/-- C10: partiality of the EXECUTE color decode over the 32-bit spectrum
domain.  Whenever the formatted uppercase hexadecimal representation has an
odd number of digits (which happens exactly for values above hex FFFFFF with
seven digits), the two-character chunking leaves a trailing one-character
chunk and indexing its second byte panics; for every value at most hex FFFFFF
the decode succeeds and yields the three bytes. -/
theorem c10_decode_partiality (n : Nat) (hn : n < 2 ^ 32) :
    ((formatHexUpper 6 n).length % 2 = 1 → decodeSpectrum n = none)
    ∧ (n ≤ 0xFFFFFF → decodeSpectrum n = some [n / 65536, n / 256 % 256, n % 256]) := by
  constructor
  · exact decodeSpectrum_odd n
  · intro h
    exact decodeSpectrum_small n (by norm_num at h ⊢; omega)

/-- Witness for C10 at hex 1000000 (seven digits, panic) and hex FF0000
(decodes to the bytes 255, 0, 0). -/
theorem c10_decode_partiality_witness :
    decodeSpectrum 16777216 = none ∧ decodeSpectrum 16711680 = some [255, 0, 0] := by
  constructor
  · exact (c10_decode_partiality 16777216 (by norm_num)).1 (by decide)
  · have h := (c10_decode_partiality 16711680 (by norm_num)).2 (by norm_num)
    norm_num at h
    exact h

theorem fulfillGo_skip (app : App) (pre rest : List Input)
    (hpre : ∀ i ∈ pre, i.recognized = false) :
    fulfillGo app (pre ++ rest) = fulfillGo app rest := by
  induction pre with
  | nil => rfl
  | cons i pre ih =>
    have hi := hpre i (by simp)
    have h1 : ¬ i.intent = "action.devices.SYNC" := by
      intro h; rw [Input.recognized, h] at hi; simp at hi
    have h2 : ¬ i.intent = "action.devices.EXECUTE" := by
      intro h; rw [Input.recognized, h] at hi; simp at hi
    have h3 : ¬ i.intent = "action.devices.QUERY" := by
      intro h; rw [Input.recognized, h] at hi; simp at hi
    simp only [List.cons_append, fulfillGo, if_neg h1, if_neg h2, if_neg h3]
    exact ih (fun j hj => hpre j (by simp [hj]))

/-- C2: optimistic EXECUTE reporting.  For every registry (hence for every
backend behavior, including failing ones), whenever `fulfill` answers a
request whose first recognized input is an EXECUTE carrying command batches,
the response reports for each batch exactly the batch device ids with status
SUCCESS and states online true — the per-device dispatch outcomes are
discarded. -/
theorem c2_execute_reports_success (app : App) (rid : String)
    (pre post : List Input) (commands : List Command)
    (result : App × FulfillmentResponse × List CallEvent)
    (hpre : ∀ i ∈ pre, i.recognized = false)
    (hful : fulfill ⟨rid, pre ++ ⟨"action.devices.EXECUTE", some (.execute commands)⟩ :: post⟩
        app = some result) :
    result.2.1.payload = some (.execute (commands.map (fun c =>
      ⟨c.devices.map (fun d => d.id), "SUCCESS", ⟨true⟩⟩))) := by
  unfold fulfill at hful
  rw [fulfillGo_skip app pre _ hpre] at hful
  have hstep : fulfillGo app (⟨"action.devices.EXECUTE", some (.execute commands)⟩ :: post)
      = match execAll app commands with
        | none => none
        | some (app2, events) =>
          some (app2, some (.execute (commands.map execResponseOf)), events) := by
    simp [fulfillGo]
  rw [hstep] at hful
  cases hexec : execAll app commands with
  | none => rw [hexec] at hful; cases hful
  | some pr =>
    obtain ⟨app2, events⟩ := pr
    rw [hexec] at hful
    have h2 : some (app2,
        (⟨rid, some (.execute (commands.map execResponseOf))⟩ : FulfillmentResponse),
        events) = some result := hful
    injection h2 with h3
    rw [← h3]
    rfl

/-- The C2 witness request: one EXECUTE batch naming a registered id (whose
backend rejects every command) and an id that is not even a valid UUID. -/
def c2Request : FulfillmentRequest :=
  ⟨"req-e", [⟨"action.devices.EXECUTE", some (.execute
    [⟨[⟨uuidA⟩, ⟨"not-a-uuid"⟩], [⟨"action.devices.commands.OnOff", .onOff false⟩]⟩])⟩]⟩

/-- Witness for C2: both dispatches fail (backend error and UUID error), yet
the response batch covers both ids with SUCCESS and online true. -/
theorem c2_execute_reports_success_witness :
    (fulfill c2Request (App.new.push_light failBackend uuidA)).map (fun r => r.2.1.payload)
      = some (some (.execute [⟨[uuidA, "not-a-uuid"], "SUCCESS", ⟨true⟩⟩])) := by
  have hsome : (fulfill c2Request (App.new.push_light failBackend uuidA)).isSome = true := rfl
  match h : fulfill c2Request (App.new.push_light failBackend uuidA) with
  | none => rw [h] at hsome; cases hsome
  | some r =>
    have hp := c2_execute_reports_success (App.new.push_light failBackend uuidA) "req-e" [] []
      [⟨[⟨uuidA⟩, ⟨"not-a-uuid"⟩], [⟨"action.devices.commands.OnOff", .onOff false⟩]⟩] r
      (by intro i hi; cases hi) h
    simp only [Option.map_some', hp]
    rfl

/-- Counterexample to C3: the id string abc is not present in the registry,
yet `App.set_state` fails with the UUID parse error, not with the Absent
(NotFound) error the claim requires for every unregistered id. -/
theorem c3_counterexample :
    (App.new.push_light okBackend uuidA).set_state "abc" .off
      = ⟨App.new.push_light okBackend uuidA, [], .error .uuid⟩
    ∧ Error.uuid ≠ Error.absent :=
  ⟨rfl, by decide⟩

/-- C3 (amended): `App.set_state` on a registered id stores the new power flag
into the entry cache and invokes the backend once; a backend error is
forwarded to the caller while the cache keeps the new value (no rollback).  An
id that is not a valid UUID string fails with the UUID error, and a valid UUID
with no entry fails with Absent (NotFound); in both failure cases the registry
is unchanged. -/
theorem c3_set_power_cache_then_call (app : App) (id : String) (s : PowerState) :
    (∀ u w, uuidParse id = some u → app.by_id.lookup u = some w →
      ((app.set_state id s).app.by_id.lookup u
          = some { w with is_on := match s with | .on => true | .off => false }
        ∧ (app.set_state id s).calls = [.power w.id s]
        ∧ ∀ e, w.light.powerResp s = .error e →
            (app.set_state id s).result = .error (.light e)))
    ∧ (uuidParse id = none → app.set_state id s = ⟨app, [], .error .uuid⟩)
    ∧ (∀ u, uuidParse id = some u → app.by_id.lookup u = none →
        app.set_state id s = ⟨app, [], .error .absent⟩) := by
  refine ⟨?_, ?_, ?_⟩
  · intro u w hu hw
    have happ : (app.set_state id s).app = app.updateWrapper u (fun w0 =>
        { w0 with is_on := match s with | .on => true | .off => false }) := by
      simp [App.set_state, hu, hw]
    have hcalls : (app.set_state id s).calls = [.power w.id s] := by
      simp [App.set_state, hu, hw]
    refine ⟨?_, hcalls, ?_⟩
    · rw [happ, updateWrapper_lookup, hw]
      simp
    · intro e he
      simp [App.set_state, hu, hw, he]
  · intro hu
    simp [App.set_state, hu]
  · intro u hu hl
    simp [App.set_state, hu, hl]

/-- Witness for C3 at a registry with one flaky light: the cache flips to On
even though the backend rejects the command with error 7, and a valid but
absent UUID hits the Absent error. -/
theorem c3_set_power_cache_then_call_witness :
    ((App.new.push_light failBackend uuidA).set_state uuidA .on).app.by_id.lookup uuidA
        = some { light := failBackend, id := uuidA, brightness := 0, is_on := true,
                 color := AtomicColor.new }
    ∧ ((App.new.push_light failBackend uuidA).set_state uuidA .on).result
        = .error (.light 7)
    ∧ (App.new.push_light failBackend uuidA).set_state uuidB .on
        = ⟨App.new.push_light failBackend uuidA, [], .error .absent⟩ := by
  have h := c3_set_power_cache_then_call (App.new.push_light failBackend uuidA) uuidA .on
  have h1 := h.1 uuidA
    { light := failBackend, id := uuidA, brightness := 0, is_on := false,
      color := AtomicColor.new } (by decide) rfl
  exact ⟨h1.1, h1.2.2 7 rfl,
    (c3_set_power_cache_then_call (App.new.push_light failBackend uuidA) uuidB .on).2.2
      uuidB (by decide) rfl⟩

theorem set_state_proj (app : App) (id u : String) (w : LightWrapper) (s : PowerState)
    (hu : uuidParse id = some u) (hw : app.by_id.lookup u = some w) :
    (app.set_state id s).calls = [.power w.id s]
    ∧ ((app.set_state id s).result
        = match w.light.powerResp s with | .ok _ => .ok () | .error e => .error (.light e))
    ∧ ∀ v, (app.set_state id s).app.by_id.lookup v
        = (app.by_id.lookup v).map (fun w0 => if v = u then
            { w0 with is_on := match s with | .on => true | .off => false } else w0) := by
  refine ⟨by simp [App.set_state, hu, hw], by simp [App.set_state, hu, hw], ?_⟩
  intro v
  have happ : (app.set_state id s).app = app.updateWrapper u (fun w0 =>
      { w0 with is_on := match s with | .on => true | .off => false }) := by
    simp [App.set_state, hu, hw]
  rw [happ, updateWrapper_lookup]

theorem groupPowerFanout_cons (app : App) (id : String) (rest : List String)
    (state : PowerState) :
    groupPowerFanout app (id :: rest) state
      = match (app.set_state id state).result with
        | .error e => ⟨(app.set_state id state).app, (app.set_state id state).calls, .error e⟩
        | .ok _ =>
          ⟨(groupPowerFanout (app.set_state id state).app rest state).app,
            (app.set_state id state).calls
              ++ (groupPowerFanout (app.set_state id state).app rest state).calls,
            (groupPowerFanout (app.set_state id state).app rest state).result⟩ := rfl

theorem groupPowerFanout_nil (app : App) (state : PowerState) :
    groupPowerFanout app [] state = ⟨app, [], .ok ()⟩ := rfl

theorem groupPowerFanout_cons_ok (app : App) (id : String) (rest : List String)
    (state : PowerState) (h : (app.set_state id state).result = .ok ()) :
    groupPowerFanout app (id :: rest) state
      = ⟨(groupPowerFanout (app.set_state id state).app rest state).app,
          (app.set_state id state).calls
            ++ (groupPowerFanout (app.set_state id state).app rest state).calls,
          (groupPowerFanout (app.set_state id state).app rest state).result⟩ := by
  rw [groupPowerFanout_cons, h]

theorem groupPowerFanout_cons_error (app : App) (id : String) (rest : List String)
    (state : PowerState) (e : Error) (h : (app.set_state id state).result = .error e) :
    groupPowerFanout app (id :: rest) state
      = ⟨(app.set_state id state).app, (app.set_state id state).calls, .error e⟩ := by
  rw [groupPowerFanout_cons, h]

/-- C6: Group fan-out.  (1) When a group has two registered members with
canonical ids and both backends accept a power command, dispatching it on the
group sends it to both member backends, in member order, and the group result
is Ok.  (2) In general the group result is Ok exactly when every member
dispatch succeeds.  (3) When the first member succeeds and the backend of the
second fails, the group reports that single member failure as its own result
while the first member keeps the newly applied power state (no rollback). -/
theorem c6_group_fanout :
    (∀ (app : App) (g : Group) (a b : String) (wa wb : LightWrapper) (state : PowerState),
      g.lights = [a, b] → a ≠ b →
      uuidParse a = some a → app.by_id.lookup a = some wa → wa.id = a →
      wa.light.powerResp state = .ok () →
      uuidParse b = some b → app.by_id.lookup b = some wb → wb.id = b →
      wb.light.powerResp state = .ok () →
      (g.set_power_state app state).calls = [.power a state, .power b state]
        ∧ (g.set_power_state app state).result = .ok ())
    ∧ (∀ (app : App) (g : Group) (state : PowerState),
        ((g.set_power_state app state).result = .ok ())
          ↔ ∀ id ∈ g.lights, memberCallOk app state id = true)
    ∧ (∀ (app : App) (g : Group) (a b : String) (wa wb : LightWrapper) (state : PowerState)
        (e : Nat),
      g.lights = [a, b] → a ≠ b →
      uuidParse a = some a → app.by_id.lookup a = some wa →
      wa.light.powerResp state = .ok () →
      uuidParse b = some b → app.by_id.lookup b = some wb →
      wb.light.powerResp state = .error e →
      (g.set_power_state app state).result = .error (.light e)
        ∧ (g.set_power_state app state).app.by_id.lookup a
            = some { wa with is_on := match state with | .on => true | .off => false }) := by
  refine ⟨?_, ?_, ?_⟩
  · intro app g a b wa wb state hg hab hua hwa hida hra hub hwb hidb hrb
    have hba : ¬ b = a := fun h => hab h.symm
    obtain ⟨hc1, hr1, hl1⟩ := set_state_proj app a a wa state hua hwa
    have hres1 : (app.set_state a state).result = .ok () := by rw [hr1, hra]
    have hlb : (app.set_state a state).app.by_id.lookup b = some wb := by
      rw [hl1 b, hwb]
      simp [hba]
    obtain ⟨hc2, hr2, hl2⟩ :=
      set_state_proj (app.set_state a state).app b b wb state hub hlb
    have hres2 : ((app.set_state a state).app.set_state b state).result = .ok () := by
      rw [hr2, hrb]
    unfold Group.set_power_state
    rw [hg, groupPowerFanout_cons_ok _ _ _ _ hres1, groupPowerFanout_cons_ok _ _ _ _ hres2]
    simp [groupPowerFanout_nil, hc1, hc2, hida, hidb]
  · intro app g state
    exact groupPowerFanout_ok state g.lights app
  · intro app g a b wa wb state e hg hab hua hwa hra hub hwb hrb
    have hba : ¬ b = a := fun h => hab h.symm
    obtain ⟨hc1, hr1, hl1⟩ := set_state_proj app a a wa state hua hwa
    have hres1 : (app.set_state a state).result = .ok () := by rw [hr1, hra]
    have hlb : (app.set_state a state).app.by_id.lookup b = some wb := by
      rw [hl1 b, hwb]
      simp [hba]
    obtain ⟨hc2, hr2, hl2⟩ :=
      set_state_proj (app.set_state a state).app b b wb state hub hlb
    have hres2 : ((app.set_state a state).app.set_state b state).result
        = .error (.light e) := by
      rw [hr2, hrb]
    unfold Group.set_power_state
    rw [hg, groupPowerFanout_cons_ok _ _ _ _ hres1,
      groupPowerFanout_cons_error _ _ _ _ _ hres2]
    constructor
    · rfl
    · show ((app.set_state a state).app.set_state b state).app.by_id.lookup a = _
      rw [hl2 a, hl1 a, hwa]
      simp [hab]

/-- The Light Entry created for `okBackend` under `uuidA`. -/
def wOkA : LightWrapper :=
  { light := okBackend, id := uuidA, brightness := 0, is_on := false, color := AtomicColor.new }

/-- The Light Entry created for `okBackend` under `uuidB`. -/
def wOkB : LightWrapper :=
  { light := okBackend, id := uuidB, brightness := 0, is_on := false, color := AtomicColor.new }

/-- The Light Entry created for `failBackend` under `uuidB`. -/
def wFailB : LightWrapper :=
  { light := failBackend, id := uuidB, brightness := 0, is_on := false,
    color := AtomicColor.new }

/-- A registry with a working light `uuidA` and a flaky light `uuidB`. -/
def c6App : App := (App.new.push_light failBackend uuidB).push_light okBackend uuidA

/-- A registry with two working lights `uuidA` and `uuidB`. -/
def c6AppOk : App := (App.new.push_light okBackend uuidB).push_light okBackend uuidA

/-- The group g1 with members `uuidA` and `uuidB`. -/
def c6Group : Group := { name := "Group g1", lights := [uuidA, uuidB], id := "g1" }

/-- Witness for C6: with two working members both backends receive Off and the
group succeeds; with a flaky second member the group reports the member
failure while the first member cache keeps the applied Off state. -/
theorem c6_group_fanout_witness :
    ((c6Group.set_power_state c6AppOk .off).calls = [.power uuidA .off, .power uuidB .off]
      ∧ (c6Group.set_power_state c6AppOk .off).result = .ok ())
    ∧ (c6Group.set_power_state c6App .off).result = .error (.light 7)
    ∧ (c6Group.set_power_state c6App .off).app.by_id.lookup uuidA
        = some { light := okBackend, id := uuidA, brightness := 0, is_on := false,
                 color := AtomicColor.new } := by
  have hp1 := c6_group_fanout.1 c6AppOk c6Group uuidA uuidB wOkA wOkB .off rfl
    (by decide) (by decide) rfl rfl rfl (by decide) rfl rfl rfl
  have hp3 := c6_group_fanout.2.2 c6App c6Group uuidA uuidB wOkA wFailB .off 7 rfl
    (by decide) (by decide) rfl rfl (by decide) rfl rfl
  exact ⟨hp1, hp3.1, hp3.2⟩

/-- The registry of the C7 counterexample: one light with cached brightness 2. -/
def c7App : App := ((App.new.push_light okBackend uuidA).set_brightness uuidA 2).app

/-- The C7 QUERY request. -/
def c7Request : FulfillmentRequest :=
  ⟨"req-q", [⟨"action.devices.QUERY", some (.query [⟨uuidA⟩])⟩]⟩

/-- Counterexample to C7: with cached brightness 2 the QUERY response reports
brightness 0 (truncation of 0.78), while rounding `2 / 255 * 100` to the
nearest integer gives 1. -/
theorem c7_counterexample :
    (fulfill c7Request c7App).map (fun r => r.2.1.payload)
      = some (some (.query "haha.yes"
          [(uuidA, ⟨"SUCCESS", true, 0, false, .rgb 16777215 ""⟩)]))
    ∧ roundDiv (2 * 100) 255 = 1 ∧ (0 : Nat) ≠ 1 :=
  ⟨by decide, by decide, by decide⟩

/-- C7 (amended): for every registered entry included in a QUERY request, the
reported brightness is the truncation `cached * 100 / 255` (not the nearest
integer), and it lies in 0..100 whenever the cache holds a byte value. -/
theorem c7_query_brightness_truncates (app : App) (requested : List CommandDevice)
    (id : String) (qd : QueryDevice) (hmem : (id, qd) ∈ queryDevices app requested) :
    ∃ p, p ∈ app.by_id ∧ p.2.id = id ∧ qd.brightness = p.2.brightness * 100 / 255
      ∧ (p.2.brightness ≤ 255 → qd.brightness ≤ 100) := by
  unfold queryDevices at hmem
  rw [List.mem_filterMap] at hmem
  obtain ⟨p, hp, hsome⟩ := hmem
  by_cases hreq : requested.any (fun dev => dev.id == p.2.id) = true
  · rw [if_pos hreq] at hsome
    have hpair : (p.2.id, queryDeviceOf p.2) = (id, qd) := by
      injection hsome
    have hid : p.2.id = id := congrArg Prod.fst hpair
    have hqd : queryDeviceOf p.2 = qd := congrArg Prod.snd hpair
    refine ⟨p, hp, hid, ?_, ?_⟩
    · rw [← hqd]
      rfl
    · intro hb
      rw [← hqd]
      show queryBrightnessOut p.2.brightness ≤ 100
      unfold queryBrightnessOut
      omega
  · rw [if_neg hreq] at hsome
    cases hsome

/-- Witness for C7 at the concrete registry with cached brightness 2. -/
theorem c7_query_brightness_truncates_witness :
    ∃ p, p ∈ c7App.by_id ∧ p.2.id = uuidA
      ∧ (⟨"SUCCESS", true, 0, false, .rgb 16777215 ""⟩ : QueryDevice).brightness
          = p.2.brightness * 100 / 255
      ∧ (p.2.brightness ≤ 255 →
          (⟨"SUCCESS", true, 0, false, .rgb 16777215 ""⟩ : QueryDevice).brightness ≤ 100) :=
  c7_query_brightness_truncates c7App [⟨uuidA⟩] uuidA
    ⟨"SUCCESS", true, 0, false, .rgb 16777215 ""⟩ (by decide)

/-- An EXECUTE request carrying one Brightness command with percentage `p`
for the fixture light. -/
def brightnessExecRequest (p : Nat) : FulfillmentRequest :=
  ⟨"req-b", [⟨"action.devices.EXECUTE", some (.execute
    [⟨[⟨uuidA⟩], [⟨"action.devices.commands.BrightnessAbsolute", .brightness p⟩]⟩])⟩]⟩

/-- Counterexample to C8: an EXECUTE Brightness command with percentage 1
passes internal brightness 2 to the registry (truncation of 2.55), while
rounding `1 / 100 * 255` to the nearest integer gives 3. -/
theorem c8_counterexample :
    (fulfill (brightnessExecRequest 1) (App.new.push_light okBackend uuidA)).map
        (fun r => r.2.2) = some [.brightness uuidA 2]
    ∧ roundDiv (1 * 255) 100 = 3 ∧ (2 : Nat) ≠ 3 :=
  ⟨by decide, by decide, by decide⟩

/-- C8 (amended): the EXECUTE Brightness conversion is the saturating
truncation `min 255 (p * 255 / 100)`, not rounding to nearest: for every
registered device the registry receives exactly that internal value;
percentage 0 maps to 0 and percentage 100 maps to 255; every percentage above
100 (up to the serde limit of 255) saturates to internal 255, and percentages
above 255 are rejected at deserialization since the field type is u8. -/
theorem c8_execute_brightness_truncates :
    (∀ (app : App) (rid cmdName devId : String) (p : Nat) (u : String) (w : LightWrapper),
      uuidParse devId = some u → app.by_id.lookup u = some w →
      (fulfill ⟨rid, [⟨"action.devices.EXECUTE", some (.execute
          [⟨[⟨devId⟩], [⟨cmdName, .brightness p⟩]⟩])⟩]⟩ app).map (fun r => r.2.2)
        = some [.brightness w.id (execBrightnessIn p)])
    ∧ execBrightnessIn 0 = 0 ∧ execBrightnessIn 100 = 255
    ∧ (∀ p, 100 ≤ p → execBrightnessIn p = 255) := by
  refine ⟨?_, by decide, by decide, ?_⟩
  · intro app rid cmdName devId p u w hu hw
    simp [fulfill, fulfillGo, execAll, execDevices, execOps, execParams,
      App.set_brightness, hu, hw]
  · intro p hp
    unfold execBrightnessIn
    have h1 : 255 ≤ p * 255 / 100 := by
      have h2 : 100 * 255 ≤ p * 255 := Nat.mul_le_mul_right 255 hp
      omega
    omega

/-- Witness for C8 at percentage 40 on a registered light, and saturation at
percentage 101. -/
theorem c8_execute_brightness_truncates_witness :
    (fulfill (brightnessExecRequest 40) (App.new.push_light okBackend uuidA)).map
        (fun r => r.2.2) = some [.brightness uuidA (execBrightnessIn 40)]
    ∧ execBrightnessIn 101 = 255 := by
  constructor
  · exact c8_execute_brightness_truncates.1 (App.new.push_light okBackend uuidA)
      "req-b" "action.devices.commands.BrightnessAbsolute" uuidA 40 uuidA wOkA
      (by decide) rfl
  · exact c8_execute_brightness_truncates.2.2.2 101 (by norm_num)

end VDev
